import Mathlib

/-!
Verification of the Pong terminal game (`app.c`, uCOS-III, PIC32).

The C source is shallowly embedded below.  Byte output through the UART is
modelled as a list of transmitted byte values; the scheduler critical
section (OSSchedLock/OSSchedUnlock) used as the render lock is modelled as
explicit lock/unlock events in the emitted event trace, so that locking
discipline is visible in the model.  C `int` is modelled as `Int`; the
conversion to `unsigned` performed by the `10u`/`100u` divisors in the
number-printing helpers is modelled by reduction modulo 2^32, and the byte
actually put on the wire by `putU1` is the argument reduced modulo 2^8.
-/

/-- Screen bound `SCREEN_X_START` from app.c. -/
def SCREEN_X_START : Int := 1

/-- Screen bound `SCREEN_X_END` from app.c. -/
def SCREEN_X_END : Int := 80

/-- Screen bound `SCREEN_Y_START` from app.c. -/
def SCREEN_Y_START : Int := 1

/-- Screen bound `SCREEN_Y_END` from app.c. -/
def SCREEN_Y_END : Int := 25

/-- `BALL_X_START = (SCREEN_X_END - SCREEN_X_START)/2` (C integer division). -/
def BALL_X_START : Int := (SCREEN_X_END - SCREEN_X_START) / 2

/-- `BALL_Y_START = (SCREEN_Y_END - SCREEN_Y_START)/2` (C integer division). -/
def BALL_Y_START : Int := (SCREEN_Y_END - SCREEN_Y_START) / 2

/-- C conversion of a (signed) `int` value to `unsigned int`: reduction
modulo 2^32 into `[0, 2^32)`. -/
def toU32 (i : Int) : Int := i % 4294967296

/-- `putU1` transmits one byte on UART1: the low 8 bits of its argument.
We model the transport as the list of transmitted byte values. -/
def putU1 (c : Int) : List Nat := [((c % 256).toNat)]

/-- `UART_PrintNum(int i)`: `putU1(i / 10u + '0'); putU1(i % 10u + '0');`.
The divisor `10u` makes the arithmetic unsigned, hence `toU32`. -/
def UART_PrintNum (i : Int) : List Nat :=
  putU1 (toU32 i / 10 + 48) ++ putU1 (toU32 i % 10 + 48)

/-- `UART_PrintNum3(int i)`: first digit via unsigned `i / 100u`, the other
two via signed `i % 100` then unsigned `/ 10u` resp. signed `% 10`. -/
def UART_PrintNum3 (i : Int) : List Nat :=
  putU1 (toU32 i / 100 + 48) ++
  putU1 (toU32 (Int.tmod i 100) / 10 + 48) ++
  putU1 (Int.tmod (Int.tmod i 100) 10 + 48)

/-- `Screen_Clear`: ESC followed by the letter c. -/
def Screen_Clear : List Nat := putU1 27 ++ putU1 99

/-- `Screen_MoveCursor(int Xpos, int Ypos)`: ESC `[`, the row printed by
`UART_PrintNum`, `;`, the column printed by `UART_PrintNum`, `H`. -/
def Screen_MoveCursor (Xpos Ypos : Int) : List Nat :=
  putU1 27 ++ putU1 91 ++ UART_PrintNum Ypos ++ putU1 59 ++
  UART_PrintNum Xpos ++ putU1 72

/-- Events observable at the rendering layer: acquiring the scheduler lock
(`OSSchedLock`), releasing it (`OSSchedUnlock`), and one byte sent to the
transport. -/
inductive Ev where
  | lock : Ev
  | unlock : Ev
  | byte : Nat → Ev
deriving DecidableEq, Repr

/-- Lift a byte sequence to an event trace. -/
def out (bs : List Nat) : List Ev := bs.map Ev.byte

/-- The bytes of an event trace, i.e. what the terminal actually receives. -/
def bytesOf (es : List Ev) : List Nat :=
  es.filterMap (fun e => match e with | Ev.byte b => some b | _ => none)

/-- `Screen_WriteChar(int x, int y, char c)`.  Result: the value returned
(`none` when the function falls off its end without a `return`, as the C
success path does) paired with the event trace (lock, bytes, unlock). -/
def Screen_WriteChar (x y c : Int) : Option Int × List Ev :=
  if x > SCREEN_X_END ∨ x < SCREEN_X_START ∨ y > SCREEN_Y_END ∨ y < SCREEN_Y_START then
    (some 1, [])
  else
    (none, Ev.lock :: (out (Screen_MoveCursor x y) ++ out (putU1 c)) ++ [Ev.unlock])

/-- `Screen_WriteNumber(int x, int y, int number)`, same shape as
`Screen_WriteChar` with `UART_PrintNum number` as the content. -/
def Screen_WriteNumber (x y number : Int) : Option Int × List Ev :=
  if x > SCREEN_X_END ∨ x < SCREEN_X_START ∨ y > SCREEN_Y_END ∨ y < SCREEN_Y_START then
    (some 1, [])
  else
    (none, Ev.lock :: (out (Screen_MoveCursor x y) ++ out (UART_PrintNum number)) ++ [Ev.unlock])

/-- The printable region of the screen, `[X_MIN,X_MAX] × [Y_MIN,Y_MAX]`. -/
def inBounds (x y : Int) : Prop :=
  SCREEN_X_START ≤ x ∧ x ≤ SCREEN_X_END ∧ SCREEN_Y_START ≤ y ∧ y ≤ SCREEN_Y_END

instance (x y : Int) : Decidable (inBounds x y) := by
  unfold inBounds; infer_instance

/-- Instantaneous levels of the four push buttons of the Basic Shield
(`BTN1`..`BTN4` in bsp.h), as sampled by a GPIO read. -/
structure Buttons where
  btn1 : Bool
  btn2 : Bool
  btn3 : Bool
  btn4 : Bool
deriving DecidableEq, Repr

/-- `BTN1` level. -/
def BTN1 (b : Buttons) : Bool := b.btn1

/-- `BTN2` level. -/
def BTN2 (b : Buttons) : Bool := b.btn2

/-- `BTN3` level. -/
def BTN3 (b : Buttons) : Bool := b.btn3

/-- `BTN4` level. -/
def BTN4 (b : Buttons) : Bool := b.btn4

/-- `#define RIGHT_UP_SW BTN1` from app.c. -/
def RIGHT_UP_SW (b : Buttons) : Bool := BTN1 b

/-- `#define RIGHT_DOWN_SW BTN2` from app.c. -/
def RIGHT_DOWN_SW (b : Buttons) : Bool := BTN2 b

/-- `#define LEFT_UP_SW BTN3` from app.c. -/
def LEFT_UP_SW (b : Buttons) : Bool := BTN3 b

/-- `#define LEFT_DOWN_SW BTN4` from app.c. -/
def LEFT_DOWN_SW (b : Buttons) : Bool := BTN4 b

/-- `Ball_Up()`: `if (RIGHT_UP_SW) return 1; else return 0;`. -/
def Ball_Up (b : Buttons) : Int := if RIGHT_UP_SW b then 1 else 0

/-- `Ball_Down()`: `if (RIGHT_DOWN_SW) return 1; else return 0;`. -/
def Ball_Down (b : Buttons) : Int := if RIGHT_DOWN_SW b then 1 else 0

/-- `Ball_Left()`: `if (LEFT_UP_SW) return 1; else return 0;`. -/
def Ball_Left (b : Buttons) : Int := if LEFT_UP_SW b then 1 else 0

/-- `Ball_Right()`: `if (LEFT_DOWN_SW) return 1; else return 0;`. -/
def Ball_Right (b : Buttons) : Int := if LEFT_DOWN_SW b then 1 else 0

/-- State of the ball task: the locals `x`, `y` of `App_TaskBall` and the
globals `x_delta`, `y_delta`. -/
structure BallState where
  x : Int
  y : Int
  x_delta : Int
  y_delta : Int
deriving DecidableEq, Repr

/-- The input-resolution chain of the ball task body:
`if (Ball_Up()) ... else if (Ball_Down()) ... else if (Ball_Right()) ...
else if (Ball_Left()) ...` with the C truthiness test `≠ 0`. -/
def resolveDelta (b : Buttons) (xd yd : Int) : Int × Int :=
  if Ball_Up b ≠ 0 then (0, 1)
  else if Ball_Down b ≠ 0 then (0, -1)
  else if Ball_Right b ≠ 0 then (-1, 0)
  else if Ball_Left b ≠ 0 then (1, 0)
  else (xd, yd)

/-- One iteration of the `while` loop of `App_TaskBall`, state part only:
resolve the deltas from the buttons, then `x += x_delta; y += y_delta;`. -/
def ballTick (b : Buttons) (s : BallState) : BallState :=
  { x := s.x + (resolveDelta b s.x_delta s.y_delta).1
  , y := s.y + (resolveDelta b s.x_delta s.y_delta).2
  , x_delta := (resolveDelta b s.x_delta s.y_delta).1
  , y_delta := (resolveDelta b s.x_delta s.y_delta).2 }

/-- The state of the ball task right after its initialisation code:
`x_delta = 1; y_delta = 0; x = BALL_X_START; y = BALL_Y_START;`. -/
def ballInit : BallState :=
  { x := BALL_X_START, y := BALL_Y_START, x_delta := 1, y_delta := 0 }

/-- Run the ball task body for one iteration per element of `inputs`
(the button levels sampled on each successive tick). -/
def ballRun (inputs : List Buttons) (s : BallState) : BallState :=
  inputs.foldl (fun st b => ballTick b st) s

/-- No button pressed. -/
def offButtons : Buttons := ⟨false, false, false, false⟩

/-- The render-event trace of one iteration of the `App_TaskBall` loop:
`Screen_WriteChar(x, y, ' ')` at the old position, then the position
update, then `Screen_WriteChar(x, y, '*')` at the new position. -/
def ballTickTrace (b : Buttons) (s : BallState) : List Ev :=
  (Screen_WriteChar s.x s.y 32).2 ++
  (Screen_WriteChar (ballTick b s).x (ballTick b s).y 42).2

/-- Whether an event is a byte emission. -/
def isByteEv : Ev → Bool
  | Ev.byte _ => true
  | _ => false

/-- Whether an event is a lock acquisition. -/
def isLockEv : Ev → Bool
  | Ev.lock => true
  | _ => false

/-- A trace that is one single lock acquisition: a lock, then bytes only,
then the matching unlock. -/
def singleAcquisition (es : List Ev) : Bool :=
  match es with
  | Ev.lock :: rest =>
    match rest.getLast? with
    | some Ev.unlock => rest.dropLast.all isByteEv
    | _ => false
  | _ => false

/-- Modelled from the spec: the scheduler critical section
(`OSSchedLock`/`OSSchedUnlock`, code of the uCOS-III kernel, outside this
repository).  Per §5 of the design, while one task holds the lock no other
task runs.  A global trace tags each event with the id of the emitting
task; `lockStep` advances the lock-holder state by one tagged event, and
fails (`none`) on events the scheduler cannot produce. -/
def lockStep (h : Option Nat) (e : Nat × Ev) : Option (Option Nat) :=
  match e.2 with
  | Ev.byte _ => if h = none ∨ h = some e.1 then some h else none
  | Ev.lock => if h = none then some (some e.1) else none
  | Ev.unlock => if h = some e.1 then some none else none

/-- Modelled from the spec: `validFrom h tr` holds when the tagged global
trace `tr` is producible by the scheduler starting with lock holder `h`. -/
def validFrom : Option Nat → List (Nat × Ev) → Bool
  | _, [] => true
  | h, e :: tr =>
    match lockStep h e with
    | some h' => validFrom h' tr
    | none => false

/-- Spec-side model (§4.4): the four directional states of the ball. -/
inductive Dir where
  | MovingUp : Dir
  | MovingDown : Dir
  | MovingLeft : Dir
  | MovingRight : Dir
deriving DecidableEq, Repr

/-- Spec-side model: the velocity of each directional state. -/
def dirVel : Dir → Int × Int
  | Dir.MovingUp => (0, 1)
  | Dir.MovingDown => (0, -1)
  | Dir.MovingLeft => (-1, 0)
  | Dir.MovingRight => (1, 0)

/-- Spec-side model (§4.4): transition table in fixed priority order — the
up input first, then the down input, then the horizontally-mapped input
giving dx = -1 (the one read by `Ball_Right`, i.e. `BTN4`), then the one
giving dx = +1 (read by `Ball_Left`, i.e. `BTN3`); no input keeps the
current state. -/
def specTrans (b : Buttons) (d : Dir) : Dir :=
  if b.btn1 then Dir.MovingUp
  else if b.btn2 then Dir.MovingDown
  else if b.btn4 then Dir.MovingLeft
  else if b.btn3 then Dir.MovingRight
  else d

/-- Spec-side model: position plus directional state. -/
structure SpecSt where
  x : Int
  y : Int
  dir : Dir
deriving DecidableEq, Repr

/-- Spec-side model: one tick — resolve the state, then advance the
position by the state's velocity. -/
def specStep (b : Buttons) (s : SpecSt) : SpecSt :=
  ⟨s.x + (dirVel (specTrans b s.dir)).1,
   s.y + (dirVel (specTrans b s.dir)).2,
   specTrans b s.dir⟩

/-- Spec-side model: deterministic replay of the transition table over a
per-tick input pattern. -/
def specRun (inputs : List Buttons) (s : SpecSt) : SpecSt :=
  inputs.foldl (fun st b => specStep b st) s

/-- The correspondence between the spec-side state and the code state:
same position, and the code's deltas are the state's velocity. -/
def absSt (s : SpecSt) : BallState :=
  ⟨s.x, s.y, (dirVel s.dir).1, (dirVel s.dir).2⟩

/-- The four axis-aligned unit velocities. -/
def axisVels : List (Int × Int) := [(1, 0), (-1, 0), (0, 1), (0, -1)]

/-- Spec-side model of the claimed number rendering: the value modulo the
two-digit field capacity, zero-padded. -/
def specZeroPad2 (n : Int) : List Nat :=
  [48 + ((n % 100) / 10).toNat, 48 + ((n % 100) % 10).toNat]

/-! ## Helper lemmas -/

lemma printNum_digits (i : Int) (h0 : 0 ≤ i) (h1 : i ≤ 2079) :
    UART_PrintNum i = [48 + (i / 10).toNat, 48 + (i % 10).toNat] := by
  have ht : toU32 i = i := by unfold toU32; omega
  simp only [UART_PrintNum, putU1, ht, List.cons_append, List.nil_append,
    List.cons.injEq, and_true]
  omega

lemma bytesOf_out (a : List Nat) : bytesOf (out a) = a := by
  induction a with
  | nil => rfl
  | cons x xs ih =>
      show x :: bytesOf (out xs) = x :: xs
      rw [ih]

lemma bytesOf_append (xs ys : List Ev) :
    bytesOf (xs ++ ys) = bytesOf xs ++ bytesOf ys := by
  simp [bytesOf, List.filterMap_append]

lemma bytesOf_wrap (a b : List Nat) :
    bytesOf (Ev.lock :: (out a ++ out b) ++ [Ev.unlock]) = a ++ b := by
  show bytesOf ((out a ++ out b) ++ [Ev.unlock]) = a ++ b
  rw [bytesOf_append, bytesOf_append, bytesOf_out, bytesOf_out]
  simp [bytesOf]

lemma oob_iff (x y : Int) :
    (x > SCREEN_X_END ∨ x < SCREEN_X_START ∨ y > SCREEN_Y_END ∨ y < SCREEN_Y_START) ↔
      ¬ inBounds x y := by
  simp only [inBounds, SCREEN_X_START, SCREEN_X_END, SCREEN_Y_START, SCREEN_Y_END]
  omega

/-! ## Claims about the rendering layer -/

/-- C1: for every (col, row) with 1 ≤ col ≤ 80 and 1 ≤ row ≤ 25,
`Screen_WriteChar` and `Screen_WriteNumber` take the success path (the
error return 1 is not produced) and emit exactly the move-cursor sequence
for (col, row) followed by the content bytes (one raw byte, resp. the
formatted digits); for every coordinate pair outside that range they
return 1 and emit zero bytes. -/
theorem C1_write_bounds (x y c n : Int) :
    (inBounds x y →
      (Screen_WriteChar x y c).1 ≠ some 1 ∧
      bytesOf (Screen_WriteChar x y c).2 = Screen_MoveCursor x y ++ putU1 c ∧
      (Screen_WriteNumber x y n).1 ≠ some 1 ∧
      bytesOf (Screen_WriteNumber x y n).2 = Screen_MoveCursor x y ++ UART_PrintNum n) ∧
    (¬ inBounds x y →
      Screen_WriteChar x y c = (some 1, []) ∧
      Screen_WriteNumber x y n = (some 1, [])) := by
  constructor
  · intro h
    have hc : ¬ (x > SCREEN_X_END ∨ x < SCREEN_X_START ∨ y > SCREEN_Y_END ∨ y < SCREEN_Y_START) := by
      rw [oob_iff]; exact not_not_intro h
    rw [Screen_WriteChar, Screen_WriteNumber, if_neg hc, if_neg hc]
    exact ⟨by simp, bytesOf_wrap _ _, by simp, bytesOf_wrap _ _⟩
  · intro h
    have hc : x > SCREEN_X_END ∨ x < SCREEN_X_START ∨ y > SCREEN_Y_END ∨ y < SCREEN_Y_START :=
      (oob_iff x y).mpr h
    rw [Screen_WriteChar, Screen_WriteNumber, if_pos hc, if_pos hc]
    exact ⟨rfl, rfl⟩

/-- Witness for C1 at (40, 12) in bounds and (0, 12) out of bounds. -/
theorem C1_write_bounds_witness :
    (Screen_WriteChar 40 12 42).1 ≠ some 1 ∧
    bytesOf (Screen_WriteChar 40 12 42).2 = Screen_MoveCursor 40 12 ++ putU1 42 ∧
    Screen_WriteNumber 0 12 7 = (some 1, []) := by
  have h1 := (C1_write_bounds 40 12 42 7).1 (by decide)
  have h2 := (C1_write_bounds 0 12 42 7).2 (by decide)
  exact ⟨h1.1, h1.2.1, h2.2⟩

/-- C3: `Screen_MoveCursor 12 13` emits exactly ESC `[` `1` `3` `;` `1` `2`
`H` (row first as two zero-padded decimal digits, then `;`, then the
column as two zero-padded decimal digits, then `H`); in general this holds
for all col, row in 0..99; and the function performs no bounds validation:
it always emits its 8 bytes. -/
theorem C3_moveCursor_bytes :
    Screen_MoveCursor 12 13 = [27, 91, 49, 51, 59, 49, 50, 72] ∧
    (∀ col row : Int, 0 ≤ col → col ≤ 99 → 0 ≤ row → row ≤ 99 →
      Screen_MoveCursor col row =
        [27, 91, 48 + (row / 10).toNat, 48 + (row % 10).toNat, 59,
         48 + (col / 10).toNat, 48 + (col % 10).toNat, 72]) ∧
    (∀ col row : Int, (Screen_MoveCursor col row).length = 8) := by
  refine ⟨by decide, ?_, ?_⟩
  · intro col row hc0 hc1 hr0 hr1
    rw [Screen_MoveCursor, printNum_digits col hc0 (by omega),
      printNum_digits row hr0 (by omega)]
    simp [putU1]
  · intro col row
    simp [Screen_MoveCursor, UART_PrintNum, putU1]

/-- Witness for C3 at col = 5, row = 7. -/
theorem C3_moveCursor_bytes_witness :
    Screen_MoveCursor 5 7 = [27, 91, 48, 55, 59, 48, 53, 72] :=
  (C3_moveCursor_bytes.2.1 5 7 (by decide) (by decide) (by decide)
    (by decide)).trans (by decide)

/-- C5 counterexample: at value 100, `UART_PrintNum` (the content encoder
of `Screen_WriteNumber`) emits the bytes 58 (the character after the digit
9) and 48, not the zero-padded rendering of 100 mod 100 (which would be
the bytes 48, 48), so the rendered digits do not equal the value modulo
the field capacity. -/
theorem C5_printNum_counterexample :
    UART_PrintNum 100 = [58, 48] ∧
    specZeroPad2 100 = [48, 48] ∧
    UART_PrintNum 100 ≠ specZeroPad2 100 ∧
    bytesOf (Screen_WriteNumber 3 3 100).2 = Screen_MoveCursor 3 3 ++ [58, 48] := by
  decide

/-- C5 amended: `UART_PrintNum` emits the byte 48 + value/10 followed by
48 + value%10.  For 0 ≤ value ≤ 99 this is the two-digit zero-padded
decimal field claimed (7 renders as the bytes of "07"); for value ≥ 100
(up to 2079, where the first sum still fits in a byte) the first emitted
byte lies beyond the digit range instead of wrapping to value mod 100. -/
theorem C5_printNum_amended (n : Int) :
    (0 ≤ n → n ≤ 99 → UART_PrintNum n = specZeroPad2 n) ∧
    (100 ≤ n → n ≤ 2079 →
      UART_PrintNum n = [48 + (n / 10).toNat, 48 + (n % 10).toNat] ∧
      57 < 48 + (n / 10).toNat) := by
  constructor
  · intro h0 h1
    rw [printNum_digits n h0 (by omega)]
    simp only [specZeroPad2, List.cons.injEq, and_true]
    omega
  · intro h0 h1
    exact ⟨printNum_digits n (by omega) h1, by omega⟩

/-- Witness for C5 amended at values 7 and 100. -/
theorem C5_printNum_amended_witness :
    UART_PrintNum 7 = specZeroPad2 7 ∧
    UART_PrintNum 100 = [48 + ((100 : Int) / 10).toNat, 48 + ((100 : Int) % 10).toNat] ∧
    57 < 48 + (((100 : Int)) / 10).toNat := by
  have h1 := (C5_printNum_amended 7).1 (by decide) (by decide)
  have h2 := (C5_printNum_amended 100).2 (by decide) (by decide)
  exact ⟨h1, h2.1, h2.2⟩

/-- C10: both write functions are declared to return `int`, but on the
in-bounds path they fall off the end of the function without executing a
`return` (modelled as the value `none`): only the out-of-bounds branch
returns the defined value 1, so a caller cannot distinguish success from
failure through a defined return value. -/
theorem C10_success_return_undefined (x y c n : Int) :
    (inBounds x y →
      (Screen_WriteChar x y c).1 = none ∧ (Screen_WriteNumber x y n).1 = none) ∧
    (¬ inBounds x y →
      (Screen_WriteChar x y c).1 = some 1 ∧ (Screen_WriteNumber x y n).1 = some 1) := by
  constructor
  · intro h
    have hc : ¬ (x > SCREEN_X_END ∨ x < SCREEN_X_START ∨ y > SCREEN_Y_END ∨ y < SCREEN_Y_START) := by
      rw [oob_iff]; exact not_not_intro h
    rw [Screen_WriteChar, Screen_WriteNumber, if_neg hc, if_neg hc]
    exact ⟨rfl, rfl⟩
  · intro h
    have hc : x > SCREEN_X_END ∨ x < SCREEN_X_START ∨ y > SCREEN_Y_END ∨ y < SCREEN_Y_START :=
      (oob_iff x y).mpr h
    rw [Screen_WriteChar, Screen_WriteNumber, if_pos hc, if_pos hc]
    exact ⟨rfl, rfl⟩

/-- Witness for C10 at (40, 12) in bounds and (81, 12) out of bounds. -/
theorem C10_success_return_undefined_witness :
    (Screen_WriteChar 40 12 42).1 = none ∧ (Screen_WriteNumber 81 12 7).1 = some 1 := by
  have h1 := (C10_success_return_undefined 40 12 42 7).1 (by decide)
  have h2 := (C10_success_return_undefined 81 12 42 7).2 (by decide)
  exact ⟨h1.1, h2.2⟩

/-! ## Claims about the ball task -/

lemma ballTick_spec (b : Buttons) (s : SpecSt) :
    ballTick b (absSt s) = absSt (specStep b s) := by
  obtain ⟨x, y, d⟩ := s
  obtain ⟨b1, b2, b3, b4⟩ := b
  cases b1 <;> cases b2 <;> cases b3 <;> cases b4 <;> cases d <;>
    simp [ballTick, absSt, specStep, specTrans, resolveDelta, Ball_Up, Ball_Down,
      Ball_Left, Ball_Right, RIGHT_UP_SW, RIGHT_DOWN_SW, LEFT_UP_SW, LEFT_DOWN_SW,
      BTN1, BTN2, BTN3, BTN4, dirVel]

lemma ballRun_spec (inputs : List Buttons) (s : SpecSt) :
    ballRun inputs (absSt s) = absSt (specRun inputs s) := by
  induction inputs generalizing s with
  | nil => rfl
  | cons b bs ih =>
      show ballRun bs (ballTick b (absSt s)) = absSt (specRun bs (specStep b s))
      rw [ballTick_spec]
      exact ih (specStep b s)

/-- C2: the ball task is the four-state machine of the spec: it starts at
(BALL_X_START, BALL_Y_START) in the MovingRight state (dx = +1, dy = 0);
each tick resolves the inputs in fixed priority order (up input first,
then down, then the input mapped to dx = -1, then the one mapped to
dx = +1, otherwise the velocity is unchanged) and then advances the
position by exactly the resolved velocity — so every run of the task body
equals the deterministic replay of the spec transition table, and five
ticks with no input asserted advance the column by 5 with the row
unchanged. -/
theorem C2_ball_state_machine :
    ballInit = absSt ⟨BALL_X_START, BALL_Y_START, Dir.MovingRight⟩ ∧
    (∀ (inputs : List Buttons) (s : SpecSt),
      ballRun inputs (absSt s) = absSt (specRun inputs s)) ∧
    ballRun (List.replicate 5 offButtons) ballInit =
      { ballInit with x := ballInit.x + 5 } := by
  exact ⟨by decide, ballRun_spec, by decide⟩

lemma resolveDelta_axis (b : Buttons) (xd yd : Int)
    (h : (xd, yd) ∈ axisVels) : resolveDelta b xd yd ∈ axisVels := by
  unfold resolveDelta
  split_ifs
  · simp [axisVels]
  · simp [axisVels]
  · simp [axisVels]
  · simp [axisVels]
  · exact h

lemma ballTick_axis (b : Buttons) (s : BallState)
    (h : (s.x_delta, s.y_delta) ∈ axisVels) :
    ((ballTick b s).x_delta, (ballTick b s).y_delta) ∈ axisVels := by
  have := resolveDelta_axis b s.x_delta s.y_delta h
  simpa [ballTick] using this

lemma ballRun_axis (inputs : List Buttons) :
    ∀ s : BallState, (s.x_delta, s.y_delta) ∈ axisVels →
      ((ballRun inputs s).x_delta, (ballRun inputs s).y_delta) ∈ axisVels := by
  induction inputs with
  | nil => intro s h; exact h
  | cons b bs ih =>
      intro s h
      show ((ballRun bs (ballTick b s)).x_delta, (ballRun bs (ballTick b s)).y_delta) ∈ axisVels
      exact ih (ballTick b s) (ballTick_axis b s h)

/-- C6: the ball's velocity is axis-aligned at all times: the initial
velocity is (1, 0); one tick of input resolution sends any axis-aligned
velocity to an axis-aligned velocity (always one of (1,0), (-1,0), (0,1),
(0,-1)); and hence after any input sequence the velocity of the running
task remains in that set. -/
theorem C6_axis_aligned :
    (ballInit.x_delta, ballInit.y_delta) = (1, 0) ∧
    (∀ (b : Buttons) (s : BallState),
      (s.x_delta, s.y_delta) ∈ axisVels →
      ((ballTick b s).x_delta, (ballTick b s).y_delta) ∈ axisVels) ∧
    (∀ inputs : List Buttons,
      ((ballRun inputs ballInit).x_delta, (ballRun inputs ballInit).y_delta) ∈ axisVels) := by
  exact ⟨rfl, ballTick_axis, fun inputs => ballRun_axis inputs ballInit (by decide)⟩

/-- Witness for C6 at the no-input tick from the initial state. -/
theorem C6_axis_aligned_witness :
    ((ballTick offButtons ballInit).x_delta, (ballTick offButtons ballInit).y_delta) ∈ axisVels :=
  C6_axis_aligned.2.1 offButtons ballInit (by decide)

lemma ballRun_off_closed (n : Nat) :
    ∀ x y : Int, ballRun (List.replicate n offButtons) ⟨x, y, 1, 0⟩ = ⟨x + n, y, 1, 0⟩ := by
  induction n with
  | zero => intro x y; simp [ballRun]
  | succ m ih =>
      intro x y
      show ballRun (List.replicate m offButtons) (ballTick offButtons ⟨x, y, 1, 0⟩) =
        ⟨x + (m + 1 : Nat), y, 1, 0⟩
      have hstep : ballTick offButtons ⟨x, y, 1, 0⟩ = ⟨x + 1, y, 1, 0⟩ := by
        simp [ballTick, resolveDelta, Ball_Up, Ball_Down, Ball_Left, Ball_Right,
          RIGHT_UP_SW, RIGHT_DOWN_SW, LEFT_UP_SW, LEFT_DOWN_SW, BTN1, BTN2, BTN3,
          BTN4, offButtons]
      rw [hstep, ih (x + 1) y]
      simp only [BallState.mk.injEq, and_true]
      omega

/-- C7: the position update of the ball task performs no wall or paddle
collision handling: for every tick and every state the new position is
exactly the old position plus the resolved velocity; with no inputs
asserted the task's x coordinate after n ticks is the start column plus
n; hence for every bound there is a tick count after which the ball's
column is beyond SCREEN_X_END and beyond that bound — the ball leaves the
printable region and grows without limit. -/
theorem C7_no_collision_handling :
    (∀ (b : Buttons) (s : BallState),
      (ballTick b s).x = s.x + (ballTick b s).x_delta ∧
      (ballTick b s).y = s.y + (ballTick b s).y_delta) ∧
    (∀ n : Nat, ballRun (List.replicate n offButtons) ballInit =
      { ballInit with x := ballInit.x + n }) ∧
    (∀ bound : Int, ∃ n : Nat,
      SCREEN_X_END < (ballRun (List.replicate n offButtons) ballInit).x ∧
      bound < (ballRun (List.replicate n offButtons) ballInit).x) := by
  have hinit : ballInit = (⟨39, 12, 1, 0⟩ : BallState) := by decide
  have hrun : ∀ n : Nat, ballRun (List.replicate n offButtons) ballInit =
      { ballInit with x := ballInit.x + n } := by
    intro n
    rw [hinit, ballRun_off_closed n 39 12]
  refine ⟨fun b s => ⟨rfl, rfl⟩, hrun, ?_⟩
  intro bound
  refine ⟨(bound.toNat + 42), ?_, ?_⟩ <;>
    · rw [hrun (bound.toNat + 42), hinit]
      simp only [SCREEN_X_END]
      omega

/-- C8: the wiring of the ball's input helpers — `Ball_Up` reads
`RIGHT_UP_SW` (which is `BTN1`), `Ball_Down` reads `RIGHT_DOWN_SW`
(`BTN2`), `Ball_Left` reads `LEFT_UP_SW` (`BTN3`), and `Ball_Right` reads
`LEFT_DOWN_SW` (`BTN4`): each helper returns 1 exactly when its switch
level is asserted and 0 exactly when it is not. -/
theorem C8_input_wiring (b : Buttons) :
    Ball_Up b = (if BTN1 b then 1 else 0) ∧
    Ball_Down b = (if BTN2 b then 1 else 0) ∧
    Ball_Left b = (if BTN3 b then 1 else 0) ∧
    Ball_Right b = (if BTN4 b then 1 else 0) ∧
    (Ball_Up b = 1 ↔ RIGHT_UP_SW b = true) ∧
    (Ball_Up b = 0 ↔ RIGHT_UP_SW b = false) ∧
    (Ball_Down b = 1 ↔ RIGHT_DOWN_SW b = true) ∧
    (Ball_Down b = 0 ↔ RIGHT_DOWN_SW b = false) ∧
    (Ball_Left b = 1 ↔ LEFT_UP_SW b = true) ∧
    (Ball_Left b = 0 ↔ LEFT_UP_SW b = false) ∧
    (Ball_Right b = 1 ↔ LEFT_DOWN_SW b = true) ∧
    (Ball_Right b = 0 ↔ LEFT_DOWN_SW b = false) := by
  obtain ⟨b1, b2, b3, b4⟩ := b
  cases b1 <;> cases b2 <;> cases b3 <;> cases b4 <;> decide

/-! ## Claims about the locking discipline -/

/-- C4 counterexample: at the concrete tick taken from the initial ball
state with no buttons pressed, the render trace of one loop iteration is
not a single lock acquisition — it contains two separate acquisitions
(the erase's and the draw's), so the lock is released between the erase
and the draw of the same tick. -/
theorem C4_counterexample :
    singleAcquisition (ballTickTrace offButtons ballInit) = false ∧
    (ballTickTrace offButtons ballInit).countP isLockEv = 2 := by
  decide

/-- C4 amended: within each tick of the ball task the erase at the old
position and the draw at the new position are each individually performed
under the lock, but as two separate acquisitions (one per
`Screen_WriteChar` call) with the lock released in between — not as a
single acquisition spanning erase, position advance, and draw. -/
theorem C4_two_acquisitions (b : Buttons) (s : BallState)
    (h1 : inBounds s.x s.y)
    (h2 : inBounds (ballTick b s).x (ballTick b s).y) :
    ballTickTrace b s =
      (Ev.lock :: (out (Screen_MoveCursor s.x s.y) ++ out (putU1 32)) ++ [Ev.unlock]) ++
      (Ev.lock :: (out (Screen_MoveCursor (ballTick b s).x (ballTick b s).y) ++
        out (putU1 42)) ++ [Ev.unlock]) := by
  have hc1 : ¬ (s.x > SCREEN_X_END ∨ s.x < SCREEN_X_START ∨
      s.y > SCREEN_Y_END ∨ s.y < SCREEN_Y_START) := by
    rw [oob_iff]; exact not_not_intro h1
  have hc2 : ¬ ((ballTick b s).x > SCREEN_X_END ∨ (ballTick b s).x < SCREEN_X_START ∨
      (ballTick b s).y > SCREEN_Y_END ∨ (ballTick b s).y < SCREEN_Y_START) := by
    rw [oob_iff]; exact not_not_intro h2
  unfold ballTickTrace
  rw [Screen_WriteChar, Screen_WriteChar, if_neg hc1, if_neg hc2]

/-- Witness for C4 amended at the first tick from the initial state. -/
theorem C4_two_acquisitions_witness :
    ballTickTrace offButtons ballInit =
      (Ev.lock :: (out (Screen_MoveCursor ballInit.x ballInit.y) ++ out (putU1 32)) ++
        [Ev.unlock]) ++
      (Ev.lock :: (out (Screen_MoveCursor (ballTick offButtons ballInit).x
        (ballTick offButtons ballInit).y) ++ out (putU1 42)) ++ [Ev.unlock]) :=
  C4_two_acquisitions offButtons ballInit (by decide) (by decide)

lemma validFrom_cons_eq (h : Option Nat) (e : Nat × Ev) (tr : List (Nat × Ev)) :
    validFrom h (e :: tr) =
      match lockStep h e with
      | some h' => validFrom h' tr
      | none => false := rfl

lemma validFrom_cons_iff (h : Option Nat) (e : Nat × Ev) (tr : List (Nat × Ev)) :
    validFrom h (e :: tr) = true ↔
      ∃ h', lockStep h e = some h' ∧ validFrom h' tr = true := by
  rw [validFrom_cons_eq]
  cases hs : lockStep h e with
  | none => simp
  | some h2 => simp

lemma lockStep_held (t : Nat) (e : Nat × Ev) (h' : Option Nat)
    (hs : lockStep (some t) e = some h') :
    e.1 = t ∧ ((isByteEv e.2 = true ∧ h' = some t) ∨ (e.2 = Ev.unlock ∧ h' = none)) := by
  obtain ⟨ta, ev⟩ := e
  cases ev with
  | lock => exact absurd hs (by simp [lockStep])
  | unlock =>
      by_cases hta : t = ta
      · subst hta
        have heq : lockStep (some t) (t, Ev.unlock) = some none := by simp [lockStep]
        rw [heq] at hs
        exact ⟨rfl, Or.inr ⟨rfl, (Option.some.inj hs).symm⟩⟩
      · have hnone : lockStep (some t) (ta, Ev.unlock) = none := by
          simp [lockStep, hta]
        rw [hnone] at hs
        exact Option.noConfusion hs
  | byte b' =>
      by_cases hta : t = ta
      · subst hta
        have heq : lockStep (some t) (t, Ev.byte b') = some (some t) := by
          simp [lockStep]
        rw [heq] at hs
        exact ⟨rfl, Or.inl ⟨rfl, (Option.some.inj hs).symm⟩⟩
      · have hnone : lockStep (some t) (ta, Ev.byte b') = none := by
          simp [lockStep, hta]
        rw [hnone] at hs
        exact Option.noConfusion hs

lemma lockStep_lockAcq (h : Option Nat) (t : Nat) (h' : Option Nat)
    (hs : lockStep h (t, Ev.lock) = some h') : h = none ∧ h' = some t := by
  cases h with
  | none =>
      have heq : lockStep none (t, Ev.lock) = some (some t) := by simp [lockStep]
      rw [heq] at hs
      exact ⟨rfl, (Option.some.inj hs).symm⟩
  | some u =>
      have hnone : lockStep (some u) (t, Ev.lock) = none := by simp [lockStep]
      rw [hnone] at hs
      exact Option.noConfusion hs

lemma locked_run (t : Nat) (post : List (Nat × Ev)) :
    ∀ mid : List (Nat × Ev),
      validFrom (some t) (mid ++ (t, Ev.unlock) :: post) = true →
      (t, Ev.unlock) ∉ mid →
      ∀ e ∈ mid, e.1 = t := by
  intro mid
  induction mid with
  | nil => intro _ _ e he; exact absurd he (List.not_mem_nil e)
  | cons a mid ih =>
      intro hv hnot e he
      rw [List.cons_append, validFrom_cons_iff] at hv
      obtain ⟨h', hs, hv'⟩ := hv
      obtain ⟨ta, ev⟩ := a
      obtain ⟨hta, hcase⟩ := lockStep_held t (ta, ev) h' hs
      have hta' : ta = t := hta
      rcases hcase with ⟨hbyte, rfl⟩ | ⟨hunlock, rfl⟩
      · rcases List.mem_cons.mp he with rfl | hmem
        · exact hta
        · exact ih hv' (fun hm => hnot (List.mem_cons_of_mem _ hm)) e hmem
      · have hev : ev = Ev.unlock := hunlock
        exact absurd (List.mem_cons.mpr (Or.inl (by rw [hta', hev]))) hnot

/-- C9: within one lock acquisition, the holder's emissions are atomic
with respect to every other task: in any global trace producible under
the modelled scheduler-lock semantics (`validFrom`), every event strictly
between a task's lock acquisition and the matching release belongs to
that task — the byte emissions of two lock-protected operations are never
interleaved. -/
theorem C9_lock_atomicity :
    ∀ (pre : List (Nat × Ev)) (h : Option Nat) (t : Nat) (mid post : List (Nat × Ev)),
      validFrom h (pre ++ (t, Ev.lock) :: (mid ++ (t, Ev.unlock) :: post)) = true →
      (t, Ev.unlock) ∉ mid →
      ∀ e ∈ mid, e.1 = t := by
  intro pre
  induction pre with
  | nil =>
      intro h t mid post hv hnot
      rw [List.nil_append, validFrom_cons_iff] at hv
      obtain ⟨h', hs, hv'⟩ := hv
      obtain ⟨-, rfl⟩ := lockStep_lockAcq h t h' hs
      exact locked_run t post mid hv' hnot
  | cons a pre ih =>
      intro h t mid post hv hnot
      rw [List.cons_append, validFrom_cons_iff] at hv
      obtain ⟨h', _, hv'⟩ := hv
      exact ih h' t mid post hv' hnot

/-- Witness for C9 on the three-event trace lock, byte, unlock of task 3. -/
theorem C9_lock_atomicity_witness :
    ((3, Ev.byte 5) : Nat × Ev).1 = 3 :=
  C9_lock_atomicity [] none 3 [(3, Ev.byte 5)] [] (by decide) (by decide)
    (3, Ev.byte 5) (List.mem_singleton.mpr rfl)
